import Mathlib

/-! Verification development for the DPAL mint saga.

The TypeScript source `src/services/mintService.ts` exports two operations:

* `executeMintFlow(userId, payload)` — the paid, idempotent mint saga: an
  idempotency-gate read, then a Mongo transaction that locks credits, records
  a mint request, calls the generative-image provider, persists the asset,
  settles the credits, and writes receipt and audit records; any thrown error
  aborts the transaction, a best-effort out-of-transaction write marks the
  request FAILED, and the original error is rethrown.
* `serveAssetImage(tokenId)` — read-only retrieval of stored asset image bytes.

The embedding models the Mongo database as explicit lists of documents and the
transaction as all-or-nothing construction of the post-state (writes performed
with the session are staged and either all land at commit or none at abort).
External nondeterminism — the GenAI response, the values of `Date.now()` and
`Math.random()`, and whether the best-effort failure write succeeds — is
passed in as explicit parameters.  Document ids (`_id`) are modelled by a
fresh-id counter in the database state. -/

/-- A credit wallet document.  Modelled from the spec: the `CreditWallet`
model file is absent from src/; spec §3/§6 give it a spendable `balance`, a
`lockedBalance`, and a unique `userId` key. -/
structure Wallet where
  userId : String
  balance : Int
  lockedBalance : Int
deriving DecidableEq

/-- The `referenceId` stored in a ledger entry: the lock entry references the
client-supplied `assetDraftId` string, the spend entry references the created
mint request document id. -/
inductive LedgerRef
  | draft (s : String)
  | doc (n : Nat)
deriving DecidableEq

/-- A credit ledger document.  Modelled from the spec: the `CreditLedger`
model file is absent from src/; spec §3/§6 make it an immutable record with a
unique `idempotencyKey` per fund movement. -/
structure LedgerEntry where
  id : Nat
  userId : String
  type : String
  amount : Int
  direction : String
  referenceId : LedgerRef
  idempotencyKey : String
deriving DecidableEq

/-- The client payload of `executeMintFlow` (destructured at
mintService.ts:16).  `meta` is flattened into its two used fields; the
`attributes` field may be absent (the source reads `payload.attributes || []`). -/
structure Payload where
  idempotencyKey : String
  concept : String
  theme : String
  assetDraftId : String
  collectionId : String
  chain : String
  priceCredits : Int
  attributes : Option (List (String × String))
deriving DecidableEq

/-- A mint request document.  Modelled from the spec: the `MintRequest` model
file is absent from src/; spec §3/§6 give it the request payload, a status in
PROCESSING/COMPLETED/FAILED, an error message on failure, and a unique
`(userId, idempotencyKey)` pair.  The create at mintService.ts:54 spreads the
payload and sets `userId` and `status`. -/
structure MintRequestDoc where
  id : Nat
  userId : String
  idempotencyKey : String
  payload : Payload
  status : String
  error : Option String
deriving DecidableEq

/-- Node's `Buffer.from (base64, base64-encoding)` is an external library
primitive; the resulting byte buffer is modelled abstractly as the base64 text
it decodes, which is faithful for every property stated here (bytes are only
stored and returned verbatim, never inspected). -/
structure Buffer where
  b64 : String
deriving DecidableEq

/-- Build a buffer from base64 text, as `Buffer.from(s, 'base64')` does at
mintService.ts:101. -/
def Buffer.fromBase64 (s : String) : Buffer := ⟨s⟩

/-- An NFT asset document, from src/models/NftAsset.ts.  `imageData` is
optional in the schema (line 15/28); `tokenId` carries a unique index
(line 19). -/
structure NftAssetDoc where
  id : Nat
  tokenId : String
  collectionId : String
  chain : String
  metadataUri : String
  imageUri : String
  attributes : List (String × String)
  createdByUserId : String
  status : String
  imageData : Option Buffer
deriving DecidableEq

/-- A mint receipt document.  Modelled from the spec: the `MintReceipt` model
file is absent from src/; spec §3/§6 key receipts by `(userId,
idempotencyKey)` — so the schema carries an `idempotencyKey` field — but the
create call at mintService.ts:121-131 passes no value for it, hence the field
is an `Option` which that create leaves at `none`. -/
structure MintReceiptDoc where
  id : Nat
  mintRequestId : Nat
  userId : String
  idempotencyKey : Option String
  tokenId : String
  txHash : String
  chain : String
  metadataUri : String
  imageUri : String
  priceCredits : Int
  ledgerEntryId : Nat
deriving DecidableEq

/-- An audit event document.  Modelled from the spec: the `AuditEvent` model
file is absent from src/; spec §3 makes it an immutable append-only record of
actor, action, entity and hash.  The `meta` object written at
mintService.ts:142 is flattened into its two fields. -/
structure AuditEventDoc where
  id : Nat
  actorUserId : String
  action : String
  entityType : String
  entityId : Nat
  hash : String
  metaPriceCredits : Int
  metaTokenId : String
deriving DecidableEq

/-- The database state: one list of documents per collection, plus a fresh-id
counter modelling Mongo object-id generation. -/
structure DB where
  wallets : List Wallet
  ledgers : List LedgerEntry
  requests : List MintRequestDoc
  receipts : List MintReceiptDoc
  assets : List NftAssetDoc
  audits : List AuditEventDoc
  nextId : Nat
deriving DecidableEq

/-- Errors thrown by the mint flow and the image read path.  The string
errors of the source (`INSUFFICIENT_CREDITS`, `IMAGE_GENERATION_FAILED`,
`ASSET_NOT_FOUND`) get one constructor each; `transportError` is an error
thrown by the GenAI SDK call itself; `typeError` is the TypeError raised by
reading `candidates[0].content.parts` on a response without candidates;
the duplicate-key constructors are the Mongo unique-index violations of the
ledger/request/token indexes (the first two modelled from the spec, the
third from NftAsset.ts:19). -/
inductive MintError
  | insufficientCredits
  | imageGenerationFailed
  | transportError (msg : String)
  | typeError
  | duplicateLedgerKey
  | duplicateRequestKey
  | duplicateTokenId
  | assetNotFound
deriving DecidableEq

/-- The `error.message` string recorded by the best-effort failure write. -/
def MintError.message : MintError → String
  | .insufficientCredits => "INSUFFICIENT_CREDITS"
  | .imageGenerationFailed => "IMAGE_GENERATION_FAILED"
  | .transportError m => m
  | .typeError => "TypeError: cannot read properties of undefined"
  | .duplicateLedgerKey => "E11000 duplicate key error: creditledgers"
  | .duplicateRequestKey => "E11000 duplicate key error: mintrequests"
  | .duplicateTokenId => "E11000 duplicate key error: nftassets"
  | .assetNotFound => "ASSET_NOT_FOUND"

/-- One part of a GenAI response candidate; `inlineData`, when present,
carries the base64 `data` field (mintService.ts:76-77). -/
structure GenPart where
  inlineData : Option String
deriving DecidableEq

/-- A GenAI response candidate, holding `content.parts`. -/
structure GenCandidate where
  parts : List GenPart
deriving DecidableEq

/-- Outcome of the `ai.models.generateContent` call: either the awaited call
throws (transport failure), or it resolves to a response with a candidate
list. -/
inductive GenOutcome
  | fail (msg : String)
  | resp (candidates : List GenCandidate)
deriving DecidableEq

/-- The loop at mintService.ts:74-80: starting from the empty string, take
the `inlineData.data` of the first part that has `inlineData` and stop. -/
def firstInline : List GenPart → String
  | [] => ""
  | p :: rest =>
    match p.inlineData with
    | some d => d
    | none => firstInline rest

/-- Lines 62-82: obtaining the base64 image from the generation call.  A
throwing call propagates its own error; a response without candidates makes
`imageResponse.candidates[0].content.parts` raise a TypeError; otherwise the
first inline datum is extracted and, if it is empty (`!base64Image`),
`IMAGE_GENERATION_FAILED` is thrown. -/
def genBase64 : GenOutcome → Except MintError String
  | .fail m => .error (.transportError m)
  | .resp [] => .error .typeError
  | .resp (c :: _) =>
    let b64 := firstInline c.parts
    if b64 == "" then .error .imageGenerationFailed else .ok b64

/-- The conditional wallet lock (mintService.ts:33-40):
`CreditWallet.findOneAndUpdate` matches the first wallet with the given
`userId` and `balance ≥ priceCredits` and atomically moves `priceCredits`
from `balance` to `lockedBalance`, returning the updated document
(`new: true`); with no match it returns null. -/
def lockWallet (u : String) (price : Int) : List Wallet → Option (Wallet × List Wallet)
  | [] => none
  | w :: rest =>
    if w.userId == u && price ≤ w.balance then
      let w' : Wallet :=
        { w with balance := w.balance - price, lockedBalance := w.lockedBalance + price }
      some (w', w' :: rest)
    else
      match lockWallet u price rest with
      | none => none
      | some (w', rest') => some (w', w :: rest')

/-- The settle step (mintService.ts:105-109): `CreditWallet.updateOne`
decrements `lockedBalance` of the first wallet matching `userId`. -/
def settleWallet (u : String) (price : Int) : List Wallet → List Wallet
  | [] => []
  | w :: rest =>
    if w.userId == u then
      { w with lockedBalance := w.lockedBalance - price } :: rest
    else
      w :: settleWallet u price rest

/-- The best-effort failure-marking write (mintService.ts:155-158):
`MintRequest.updateOne` sets status FAILED and the error message on the first
request matching `(userId, idempotencyKey)`; with no match it writes
nothing. -/
def markRequestFailed (u k msg : String) : List MintRequestDoc → List MintRequestDoc
  | [] => []
  | r :: rest =>
    if r.userId == u && r.idempotencyKey == k then
      { r with status := "FAILED", error := some msg } :: rest
    else
      r :: markRequestFailed u k msg rest

/-- Line 133: `MintRequest.updateOne({_id}, {status: COMPLETED})` on the
first request with the given document id. -/
def completeRequest (reqId : Nat) : List MintRequestDoc → List MintRequestDoc
  | [] => []
  | r :: rest =>
    if r.id == reqId then
      { r with status := "COMPLETED" } :: rest
    else
      r :: completeRequest reqId rest

/-- The idempotency gate read (mintService.ts:21):
`MintReceipt.findOne({userId, idempotencyKey})`.  A document whose
`idempotencyKey` field is absent does not match the equality query. -/
def gateHit (u k : String) (db : DB) : Option MintReceiptDoc :=
  db.receipts.find? fun r => r.userId == u && r.idempotencyKey == some k

/-- Line 86: `TOK-${Date.now()}-${Math.floor(Math.random()*1000)}`; the two
nondeterministic sources are parameters, with `% 1000` capturing the range of
the floored random component. -/
def mkTokenId (nowMs rand : Nat) : String :=
  "TOK-" ++ toString nowMs ++ "-" ++ toString (rand % 1000)

/-- Line 87: `0x-internal-${Math.random().toString(16).slice(2)}`; the random
hex suffix is a parameter. -/
def mkTxHash (txRand : String) : String :=
  "0x-internal-" ++ txRand

/-- The lock ledger entry created at mintService.ts:44-51. -/
def mkLockEntry (u : String) (p : Payload) (lockId : Nat) : LedgerEntry :=
  { id := lockId, userId := u, type := "CREDIT_LOCK", amount := p.priceCredits,
    direction := "DEBIT", referenceId := LedgerRef.draft p.assetDraftId,
    idempotencyKey := "lock-" ++ p.idempotencyKey }

/-- The spend ledger entry created at mintService.ts:111-118; its
`referenceId` is the mint request document id. -/
def mkSpendEntry (u : String) (p : Payload) (reqId spendId : Nat) : LedgerEntry :=
  { id := spendId, userId := u, type := "CREDIT_SPEND", amount := p.priceCredits,
    direction := "DEBIT", referenceId := LedgerRef.doc reqId,
    idempotencyKey := "spend-" ++ p.idempotencyKey }

/-- The mint request created at mintService.ts:54-58: the payload spread plus
`userId` and status PROCESSING. -/
def mkRequestDoc (u : String) (p : Payload) (reqId : Nat) : MintRequestDoc :=
  { id := reqId, userId := u, idempotencyKey := p.idempotencyKey, payload := p,
    status := "PROCESSING", error := none }

/-- The NFT asset created at mintService.ts:90-102, with the generated bytes
attached and status MINTED. -/
def mkAsset (u : String) (p : Payload) (b64 tokenId : String) (assetId : Nat) : NftAssetDoc :=
  { id := assetId, tokenId := tokenId, collectionId := p.collectionId,
    chain := p.chain, metadataUri := "dpal://metadata/" ++ tokenId,
    imageUri := "/api/assets/" ++ tokenId ++ ".png",
    attributes := p.attributes.getD [], createdByUserId := u,
    status := "MINTED", imageData := some (Buffer.fromBase64 b64) }

/-- The receipt created at mintService.ts:121-131.  The create passes
`mintRequestId, userId, tokenId, txHash, chain, metadataUri, imageUri,
priceCredits, ledgerEntryId` and — notably — no `idempotencyKey`, so the
stored document carries `none` there. -/
def mkReceiptDoc (u : String) (p : Payload) (tokenId txHash : String)
    (reqId lockId recId : Nat) : MintReceiptDoc :=
  { id := recId, mintRequestId := reqId, userId := u, idempotencyKey := none,
    tokenId := tokenId, txHash := txHash, chain := p.chain,
    metadataUri := "dpal://metadata/" ++ tokenId,
    imageUri := "/api/assets/" ++ tokenId ++ ".png",
    priceCredits := p.priceCredits, ledgerEntryId := lockId }

/-- The audit event created at mintService.ts:136-143. -/
def mkAudit (u : String) (p : Payload) (tokenId txHash : String)
    (assetId auditId : Nat) : AuditEventDoc :=
  { id := auditId, actorUserId := u, action := "NFT_MINT",
    entityType := "NftAsset", entityId := assetId, hash := txHash,
    metaPriceCredits := p.priceCredits, metaTokenId := tokenId }

/-- Steps 1-2 of the saga: the conditional credit lock (throwing
`INSUFFICIENT_CREDITS` when no wallet matches), the unique-index check on the
lock ledger entry key, and the unique `(userId, idempotencyKey)` check on the
mint request (both indexes modelled from the spec, their model files being
absent from src/).  Returns the post-lock wallet list. -/
def sagaLockPhase (u : String) (p : Payload) (db : DB) : Except MintError (List Wallet) :=
  match lockWallet u p.priceCredits db.wallets with
  | none => .error .insufficientCredits
  | some (_, ws1) =>
    if db.ledgers.any (fun e => e.idempotencyKey == "lock-" ++ p.idempotencyKey) then
      .error .duplicateLedgerKey
    else if db.requests.any (fun r => r.userId == u && r.idempotencyKey == p.idempotencyKey) then
      .error .duplicateRequestKey
    else
      .ok ws1

/-- The committed database produced by a successful saga run: the settled
wallets, the two appended ledger entries, the appended request marked
COMPLETED, and the appended receipt, asset and audit documents.  Document ids
are drawn in creation order from the fresh-id counter. -/
def commitDB (u : String) (p : Payload) (b64 : String) (nowMs rand : Nat)
    (txRand : String) (ws1 : List Wallet) (db : DB) : DB :=
  let tokenId := mkTokenId nowMs rand
  let txHash := mkTxHash txRand
  { wallets := settleWallet u p.priceCredits ws1,
    ledgers := db.ledgers ++ [mkLockEntry u p db.nextId,
                              mkSpendEntry u p (db.nextId + 1) (db.nextId + 3)],
    requests := completeRequest (db.nextId + 1)
                  (db.requests ++ [mkRequestDoc u p (db.nextId + 1)]),
    receipts := db.receipts ++ [mkReceiptDoc u p tokenId txHash
                  (db.nextId + 1) db.nextId (db.nextId + 4)],
    assets := db.assets ++ [mkAsset u p b64 tokenId (db.nextId + 2)],
    audits := db.audits ++ [mkAudit u p tokenId txHash (db.nextId + 2) (db.nextId + 5)],
    nextId := db.nextId + 6 }

/-- The receipt document returned by a successful saga run. -/
def commitReceipt (u : String) (p : Payload) (nowMs rand : Nat)
    (txRand : String) (db : DB) : MintReceiptDoc :=
  mkReceiptDoc u p (mkTokenId nowMs rand) (mkTxHash txRand)
    (db.nextId + 1) db.nextId (db.nextId + 4)

/-- Steps 4-8 of the saga, after the image bytes are obtained: token
synthesis, the asset insert guarded by the unique token index
(NftAsset.ts:19), the spend ledger insert guarded by the unique ledger key
index (checking committed entries suffices: the only staged entry has key
`lock-…`, which can never equal `spend-…`), then settle, receipt, request
completion and audit, all committed together. -/
def sagaFinish (u : String) (p : Payload) (b64 : String) (nowMs rand : Nat)
    (txRand : String) (ws1 : List Wallet) (db : DB) :
    Except MintError (DB × MintReceiptDoc) :=
  if db.assets.any (fun a => a.tokenId == mkTokenId nowMs rand) then
    .error .duplicateTokenId
  else if db.ledgers.any (fun e => e.idempotencyKey == "spend-" ++ p.idempotencyKey) then
    .error .duplicateLedgerKey
  else
    .ok (commitDB u p b64 nowMs rand txRand ws1 db,
         commitReceipt u p nowMs rand txRand db)

/-- The transaction body (the `try` block, mintService.ts:30-147): lock and
record, generate, then finish.  An error means the transaction is aborted and
none of the staged writes survive. -/
def runSaga (u : String) (p : Payload) (gen : GenOutcome) (nowMs rand : Nat)
    (txRand : String) (db : DB) : Except MintError (DB × MintReceiptDoc) :=
  match sagaLockPhase u p db with
  | .error e => .error e
  | .ok ws1 =>
    match genBase64 gen with
    | .error e => .error e
    | .ok b64 => sagaFinish u p b64 nowMs rand txRand ws1 db

/-- `executeMintFlow` (mintService.ts:15-165).  The idempotency gate runs
outside the transaction and returns an existing receipt unchanged.  On a
miss, the saga runs in one transaction: success commits all staged writes and
returns the new receipt; failure aborts them all, then a best-effort
out-of-transaction `updateOne` marks the matching request FAILED (the
`annotWriteOk` parameter says whether that secondary write itself succeeds;
its failure is swallowed either way) and the original error is rethrown. -/
def executeMintFlow (u : String) (p : Payload) (gen : GenOutcome)
    (nowMs rand : Nat) (txRand : String) (annotWriteOk : Bool) (db : DB) :
    DB × Except MintError MintReceiptDoc :=
  match gateHit u p.idempotencyKey db with
  | some r => (db, .ok r)
  | none =>
    match runSaga u p gen nowMs rand txRand db with
    | .ok (db', rec) => (db', .ok rec)
    | .error e =>
      ({ db with
         requests :=
           if annotWriteOk then
             markRequestFailed u p.idempotencyKey e.message db.requests
           else
             db.requests },
       .error e)

/-- `serveAssetImage` (mintService.ts:172-176): find the asset by `tokenId`;
if there is none, or it has no `imageData`, throw ASSET_NOT_FOUND; otherwise
return the stored bytes with mime type image/png.  The database is returned
unchanged — the handler only reads. -/
def serveAssetImage (tokenId : String) (db : DB) :
    DB × Except MintError (Buffer × String) :=
  match db.assets.find? (fun a => a.tokenId == tokenId) with
  | none => (db, .error .assetNotFound)
  | some a =>
    match a.imageData with
    | none => (db, .error .assetNotFound)
    | some buf => (db, .ok (buf, "image/png"))

/-- Uniqueness of asset token ids across the stored assets, the invariant
enforced by the unique index of NftAsset.ts:19. -/
def tokensUnique (db : DB) : Prop :=
  db.assets.Pairwise fun a b => a.tokenId ≠ b.tokenId

/-! Concrete fixtures used by the closed evaluation theorems and witnesses:
a single user `u1` with 100 credits, a mint payload priced at 30 credits with
idempotency key `key-1`, and canned generator outcomes. -/

/-- Fixture: the wallet of user u1 with 100 spendable credits. -/
def wallet0 : Wallet := { userId := "u1", balance := 100, lockedBalance := 0 }

/-- Fixture: a fresh database holding only `wallet0`. -/
def db0 : DB :=
  { wallets := [wallet0], ledgers := [], requests := [], receipts := [],
    assets := [], audits := [], nextId := 0 }

/-- Fixture: a database whose only wallet holds 10 credits, below the price. -/
def dbPoor : DB :=
  { wallets := [{ userId := "u1", balance := 10, lockedBalance := 0 }],
    ledgers := [], requests := [], receipts := [], assets := [], audits := [],
    nextId := 0 }

/-- Fixture: a mint payload priced at 30 credits with idempotency key
`key-1`. -/
def payload1 : Payload :=
  { idempotencyKey := "key-1", concept := "c", theme := "t",
    assetDraftId := "draft-1", collectionId := "col-1", chain := "internal",
    priceCredits := 30, attributes := none }

/-- Fixture: a generator response whose first candidate part carries inline
base64 image data. -/
def genOkResp : GenOutcome := .resp [⟨[⟨some "aGVsbG8="⟩]⟩]

/-- Fixture: a well-formed generator response none of whose parts carries
inline data. -/
def genNoInline : GenOutcome := .resp [⟨[⟨none⟩]⟩]

/-- Fixture: a first, successful mint of `payload1` against `db0`. -/
def mintOnce : DB × Except MintError MintReceiptDoc :=
  executeMintFlow "u1" payload1 genOkResp 1000 1 "ab" true db0

/-- Fixture: a second invocation with the same `(userId, idempotencyKey)`
against the state left by `mintOnce`. -/
def mintTwice : DB × Except MintError MintReceiptDoc :=
  executeMintFlow "u1" payload1 genOkResp 2000 2 "cd" true mintOnce.1

/-- Fixture: a mint of `payload1` against `db0` whose generation step yields
no usable image. -/
def mintGenFail : DB × Except MintError MintReceiptDoc :=
  executeMintFlow "u1" payload1 genNoInline 1000 1 "ab" true db0

/-- Fixture: a stored asset with token `TOK-1` carrying image bytes. -/
def assetA : NftAssetDoc :=
  { id := 7, tokenId := "TOK-1", collectionId := "col-1", chain := "internal",
    metadataUri := "dpal://metadata/TOK-1", imageUri := "/api/assets/TOK-1.png",
    attributes := [], createdByUserId := "u1", status := "MINTED",
    imageData := some ⟨"aW1n"⟩ }

/-- Fixture: a database holding only the asset `assetA`. -/
def dbAssets : DB :=
  { wallets := [wallet0], ledgers := [], requests := [], receipts := [],
    assets := [assetA], audits := [], nextId := 8 }

theorem lockWallet_mem (u : String) (price : Int) (ws : List Wallet)
    (w' : Wallet) (ws' : List Wallet)
    (h : lockWallet u price ws = some (w', ws')) :
    ∃ w ∈ ws, w.userId = u ∧ price ≤ w.balance := by
  induction ws generalizing w' ws' with
  | nil => simp [lockWallet] at h
  | cons x xs ih =>
    by_cases hx : (x.userId == u && decide (price ≤ x.balance)) = true
    · simp only [Bool.and_eq_true, beq_iff_eq, decide_eq_true_eq] at hx
      exact ⟨x, List.mem_cons_self x xs, hx.1, hx.2⟩
    · rw [lockWallet, if_neg hx] at h
      match hrec : lockWallet u price xs with
      | none => rw [hrec] at h; cases h
      | some (w2, rest2) =>
        obtain ⟨w, hmem, hw⟩ := ih w2 rest2 hrec
        exact ⟨w, List.mem_cons_of_mem _ hmem, hw⟩

theorem lockWallet_spec (u : String) (price : Int) (ws : List Wallet)
    (hu : ws.Pairwise fun a b => a.userId ≠ b.userId)
    (w' : Wallet) (ws' : List Wallet)
    (h : lockWallet u price ws = some (w', ws')) :
    ∃ w, ws.find? (fun x => x.userId == u) = some w ∧ price ≤ w.balance ∧
      w' = { w with balance := w.balance - price,
                    lockedBalance := w.lockedBalance + price } ∧
      ws'.find? (fun x => x.userId == u) = some w' := by
  induction ws generalizing w' ws' with
  | nil => simp [lockWallet] at h
  | cons x xs ih =>
    rw [List.pairwise_cons] at hu
    by_cases hx : (x.userId == u && decide (price ≤ x.balance)) = true
    · rw [lockWallet, if_pos hx] at h
      simp only [Option.some.injEq, Prod.mk.injEq] at h
      obtain ⟨hw, hws⟩ := h
      subst hw
      subst hws
      simp only [Bool.and_eq_true, beq_iff_eq, decide_eq_true_eq] at hx
      refine ⟨x, ?_, hx.2, rfl, ?_⟩
      · exact List.find?_cons_of_pos _ (by simp [hx.1])
      · exact List.find?_cons_of_pos _ (by simp [hx.1])
    · rw [lockWallet, if_neg hx] at h
      match hrec : lockWallet u price xs with
      | none => rw [hrec] at h; cases h
      | some (w2, rest2) =>
        rw [hrec] at h
        simp only [Option.some.injEq, Prod.mk.injEq] at h
        obtain ⟨hw, hws⟩ := h
        by_cases hxu : (x.userId == u) = true
        · exfalso
          obtain ⟨w3, hmem, hw3, _⟩ := lockWallet_mem u price xs w2 rest2 hrec
          rw [beq_iff_eq] at hxu
          exact hu.1 w3 hmem (by rw [hxu, hw3])
        · subst hw
          subst hws
          obtain ⟨w, hfind, hble, hweq, hfind'⟩ := ih hu.2 w2 rest2 hrec
          refine ⟨w, ?_, hble, hweq, ?_⟩
          · rw [List.find?_cons_of_neg _ (by simp [hxu]), hfind]
          · rw [List.find?_cons_of_neg _ (by simp [hxu]), hfind']

theorem settleWallet_find? (u : String) (price : Int) (ws : List Wallet) (w : Wallet)
    (h : ws.find? (fun x => x.userId == u) = some w) :
    (settleWallet u price ws).find? (fun x => x.userId == u)
      = some { w with lockedBalance := w.lockedBalance - price } := by
  induction ws with
  | nil => simp [List.find?] at h
  | cons x xs ih =>
    by_cases hx : (x.userId == u) = true
    · rw [List.find?_cons_of_pos _ (by simpa using hx)] at h
      simp only [Option.some.injEq] at h
      subst h
      rw [settleWallet, if_pos hx]
      exact List.find?_cons_of_pos _ (by simpa using hx)
    · rw [List.find?_cons_of_neg _ (by simpa using hx)] at h
      rw [settleWallet, if_neg hx]
      rw [List.find?_cons_of_neg _ (by simpa using hx)]
      exact ih h

theorem lockWallet_none (u : String) (price : Int) (ws : List Wallet)
    (hu : ws.Pairwise fun a b => a.userId ≠ b.userId)
    (w : Wallet) (hfind : ws.find? (fun x => x.userId == u) = some w)
    (hlt : w.balance < price) :
    lockWallet u price ws = none := by
  induction ws with
  | nil => simp [List.find?] at hfind
  | cons x xs ih =>
    rw [List.pairwise_cons] at hu
    by_cases hx : (x.userId == u) = true
    · rw [List.find?_cons_of_pos _ (by simpa using hx)] at hfind
      simp only [Option.some.injEq] at hfind
      subst hfind
      rw [lockWallet, if_neg (by simp [not_le.mpr hlt])]
      match hrec : lockWallet u price xs with
      | none => rfl
      | some (w2, rest2) =>
        exfalso
        obtain ⟨w3, hmem, hw3, _⟩ := lockWallet_mem u price xs w2 rest2 hrec
        rw [beq_iff_eq] at hx
        exact hu.1 w3 hmem (by rw [hx, hw3])
    · rw [List.find?_cons_of_neg _ (by simpa using hx)] at hfind
      rw [lockWallet, if_neg (by simp [hx])]
      rw [ih hu.2 hfind]

theorem markRequestFailed_length (u k msg : String) (l : List MintRequestDoc) :
    (markRequestFailed u k msg l).length = l.length := by
  induction l with
  | nil => rfl
  | cons r rest ih =>
    rw [markRequestFailed]
    by_cases hr : (r.userId == u && r.idempotencyKey == k) = true
    · rw [if_pos hr, List.length_cons, List.length_cons]
    · rw [if_neg hr, List.length_cons, List.length_cons, ih]

theorem flow_error_shape (u : String) (p : Payload) (gen : GenOutcome)
    (nowMs rand : Nat) (txRand : String) (aOk : Bool) (db db' : DB) (e : MintError)
    (h : executeMintFlow u p gen nowMs rand txRand aOk db = (db', .error e)) :
    db'.wallets = db.wallets ∧ db'.ledgers = db.ledgers ∧
    db'.receipts = db.receipts ∧ db'.assets = db.assets ∧
    db'.audits = db.audits ∧ db'.nextId = db.nextId ∧
    db'.requests = (if aOk then
        markRequestFailed u p.idempotencyKey e.message db.requests
      else db.requests) := by
  unfold executeMintFlow at h
  split at h
  · simp at h
  · split at h
    · simp at h
    · rename_i e2 heq
      simp only [Prod.mk.injEq] at h
      obtain ⟨h1, h2⟩ := h
      injection h2 with he
      subst he
      subst h1
      exact ⟨rfl, rfl, rfl, rfl, rfl, rfl, rfl⟩

theorem sagaLockPhase_ok (u : String) (p : Payload) (db : DB)
    (w1 : Wallet) (ws1 : List Wallet)
    (hlock : lockWallet u p.priceCredits db.wallets = some (w1, ws1))
    (hled : (db.ledgers.any fun x => x.idempotencyKey == "lock-" ++ p.idempotencyKey) = false)
    (hreq : (db.requests.any fun r => r.userId == u && r.idempotencyKey == p.idempotencyKey) = false) :
    sagaLockPhase u p db = .ok ws1 := by
  unfold sagaLockPhase
  rw [hlock]
  simp [hled, hreq]

theorem runSaga_gen_error (u : String) (p : Payload) (gen : GenOutcome)
    (nowMs rand : Nat) (txRand : String) (db : DB)
    (w1 : Wallet) (ws1 : List Wallet) (e : MintError)
    (hlock : lockWallet u p.priceCredits db.wallets = some (w1, ws1))
    (hled : (db.ledgers.any fun x => x.idempotencyKey == "lock-" ++ p.idempotencyKey) = false)
    (hreq : (db.requests.any fun r => r.userId == u && r.idempotencyKey == p.idempotencyKey) = false)
    (hgen : genBase64 gen = .error e) :
    runSaga u p gen nowMs rand txRand db = .error e := by
  unfold runSaga
  rw [sagaLockPhase_ok u p db w1 ws1 hlock hled hreq, hgen]

theorem flow_of_runSaga_error (u : String) (p : Payload) (gen : GenOutcome)
    (nowMs rand : Nat) (txRand : String) (aOk : Bool) (db : DB) (e : MintError)
    (hgate : gateHit u p.idempotencyKey db = none)
    (hs : runSaga u p gen nowMs rand txRand db = .error e) :
    executeMintFlow u p gen nowMs rand txRand aOk db =
      ({ db with requests := if aOk then
            markRequestFailed u p.idempotencyKey e.message db.requests
          else db.requests }, .error e) := by
  unfold executeMintFlow
  rw [hgate, hs]


theorem flow_ok_shape (u : String) (p : Payload) (gen : GenOutcome)
    (nowMs rand : Nat) (txRand : String) (aOk : Bool) (db db' : DB)
    (rec : MintReceiptDoc)
    (hgate : gateHit u p.idempotencyKey db = none)
    (h : executeMintFlow u p gen nowMs rand txRand aOk db = (db', .ok rec)) :
    ∃ w1 ws1 b64,
      lockWallet u p.priceCredits db.wallets = some (w1, ws1) ∧
      genBase64 gen = .ok b64 ∧
      (db.assets.any fun a => a.tokenId == mkTokenId nowMs rand) = false ∧
      db' = commitDB u p b64 nowMs rand txRand ws1 db ∧
      rec = commitReceipt u p nowMs rand txRand db := by
  match hs : runSaga u p gen nowMs rand txRand db with
  | .error e =>
    rw [flow_of_runSaga_error u p gen nowMs rand txRand aOk db e hgate hs] at h
    simp at h
  | .ok (db1, rec1) =>
    have hflow : executeMintFlow u p gen nowMs rand txRand aOk db = (db1, .ok rec1) := by
      unfold executeMintFlow
      rw [hgate, hs]
    rw [hflow] at h
    simp only [Prod.mk.injEq] at h
    obtain ⟨hdb1, hrec1⟩ := h
    injection hrec1 with hrec1
    subst hdb1
    subst hrec1
    unfold runSaga at hs
    split at hs
    · cases hs
    · rename_i ws1 hphase
      split at hs
      · cases hs
      · rename_i b64 hgen
        unfold sagaFinish at hs
        split at hs
        · cases hs
        · split at hs
          · cases hs
          · rename_i hassets hspend
            injection hs with hs
            simp only [Prod.mk.injEq] at hs
            obtain ⟨hdb, hrec⟩ := hs
            unfold sagaLockPhase at hphase
            split at hphase
            · cases hphase
            · rename_i w1 ws1x hlock
              split at hphase
              · cases hphase
              · split at hphase
                · cases hphase
                · injection hphase with hws
                  subst hws
                  exact ⟨w1, ws1x, b64, hlock, hgen, by simpa using hassets,
                    hdb.symm, hrec.symm⟩

/-- Claim C2: atomicity on failure — in every run of the mint flow where the
generation step fails after funds were locked, the final wallets equal their
pre-call values (balance and lockedBalance included) and no asset, receipt,
audit record or ledger entry is persisted: every write inside the transaction
is undone by the abort. -/
theorem mint_atomic_on_generation_failure
    (u : String) (p : Payload) (gen : GenOutcome) (nowMs rand : Nat)
    (txRand : String) (aOk : Bool) (db : DB)
    (w1 : Wallet) (ws1 : List Wallet) (e : MintError)
    (hgate : gateHit u p.idempotencyKey db = none)
    (hlock : lockWallet u p.priceCredits db.wallets = some (w1, ws1))
    (hled : (db.ledgers.any fun x => x.idempotencyKey == "lock-" ++ p.idempotencyKey) = false)
    (hreq : (db.requests.any fun r => r.userId == u && r.idempotencyKey == p.idempotencyKey) = false)
    (hgen : genBase64 gen = .error e) :
    (executeMintFlow u p gen nowMs rand txRand aOk db).2 = .error e ∧
    (executeMintFlow u p gen nowMs rand txRand aOk db).1.wallets = db.wallets ∧
    (executeMintFlow u p gen nowMs rand txRand aOk db).1.assets = db.assets ∧
    (executeMintFlow u p gen nowMs rand txRand aOk db).1.receipts = db.receipts ∧
    (executeMintFlow u p gen nowMs rand txRand aOk db).1.audits = db.audits ∧
    (executeMintFlow u p gen nowMs rand txRand aOk db).1.ledgers = db.ledgers := by
  have hs := runSaga_gen_error u p gen nowMs rand txRand db w1 ws1 e hlock hled hreq hgen
  rw [flow_of_runSaga_error u p gen nowMs rand txRand aOk db e hgate hs]
  exact ⟨rfl, rfl, rfl, rfl, rfl, rfl⟩

theorem mint_atomic_on_generation_failure_witness :
    gateHit "u1" payload1.idempotencyKey db0 = none ∧
    lockWallet "u1" payload1.priceCredits db0.wallets
      = some (⟨"u1", 70, 30⟩, [⟨"u1", 70, 30⟩]) ∧
    genBase64 genNoInline = .error .imageGenerationFailed ∧
    mintGenFail.2 = .error .imageGenerationFailed ∧
    mintGenFail.1.wallets = db0.wallets ∧
    mintGenFail.1.receipts = db0.receipts := by
  have h := mint_atomic_on_generation_failure "u1" payload1 genNoInline 1000 1 "ab"
    true db0 ⟨"u1", 70, 30⟩ [⟨"u1", 70, 30⟩] .imageGenerationFailed
    rfl rfl rfl rfl rfl
  exact ⟨rfl, rfl, rfl, h.1, h.2.1, h.2.2.2.1⟩

/-- Claim C4: insufficient funds — when the user's wallet holds strictly less
than the price, the flow fails with `INSUFFICIENT_CREDITS`, the wallets are
untouched (the conditional lock update matched nothing and wrote nothing),
and no request, asset or receipt document is created. -/
theorem mint_insufficient_funds
    (u : String) (p : Payload) (gen : GenOutcome) (nowMs rand : Nat)
    (txRand : String) (aOk : Bool) (db : DB) (w : Wallet)
    (huw : db.wallets.Pairwise fun a b => a.userId ≠ b.userId)
    (hgate : gateHit u p.idempotencyKey db = none)
    (hw : db.wallets.find? (fun x => x.userId == u) = some w)
    (hlt : w.balance < p.priceCredits) :
    (executeMintFlow u p gen nowMs rand txRand aOk db).2
        = .error .insufficientCredits ∧
    (executeMintFlow u p gen nowMs rand txRand aOk db).1.wallets = db.wallets ∧
    (executeMintFlow u p gen nowMs rand txRand aOk db).1.assets = db.assets ∧
    (executeMintFlow u p gen nowMs rand txRand aOk db).1.receipts = db.receipts ∧
    (executeMintFlow u p gen nowMs rand txRand aOk db).1.requests.length
        = db.requests.length := by
  have hnone := lockWallet_none u p.priceCredits db.wallets huw w hw hlt
  have hs : runSaga u p gen nowMs rand txRand db = .error .insufficientCredits := by
    unfold runSaga sagaLockPhase
    rw [hnone]
  rw [flow_of_runSaga_error u p gen nowMs rand txRand aOk db _ hgate hs]
  refine ⟨rfl, rfl, rfl, rfl, ?_⟩
  cases aOk <;> simp [markRequestFailed_length]

theorem mint_insufficient_funds_witness :
    (dbPoor.wallets.Pairwise fun a b => a.userId ≠ b.userId) ∧
    dbPoor.wallets.find? (fun x => x.userId == "u1") = some ⟨"u1", 10, 0⟩ ∧
    (10 : Int) < payload1.priceCredits ∧
    (executeMintFlow "u1" payload1 genOkResp 1000 1 "ab" true dbPoor).2
        = .error .insufficientCredits ∧
    (executeMintFlow "u1" payload1 genOkResp 1000 1 "ab" true dbPoor).1.wallets
        = dbPoor.wallets := by
  have h := mint_insufficient_funds "u1" payload1 genOkResp 1000 1 "ab" true dbPoor
    ⟨"u1", 10, 0⟩ (by simp [dbPoor]) rfl rfl (by decide)
  exact ⟨by simp [dbPoor], rfl, by decide, h.1, h.2.1⟩

/-- Claim C1 (refuted by the code): evaluation at the failing input.  A first
mint of `payload1` succeeds (one receipt for user u1 now exists), yet the
idempotency gate still misses on that state — the receipt create at
mintService.ts:121-131 stores no `idempotencyKey`, so `findOne({userId,
idempotencyKey})` cannot match it — and the second identical invocation
re-enters the saga instead of returning the stored receipt verbatim: it
aborts on the (spec-mandated) unique ledger-key index and flips the
completed request to FAILED as a side effect. -/
theorem mint_retry_not_idempotent_eval :
    mintOnce.2 = .ok (commitReceipt "u1" payload1 1000 1 "ab" db0) ∧
    mintOnce.1.receipts.length = 1 ∧
    gateHit "u1" "key-1" mintOnce.1 = none ∧
    mintTwice.2 = .error .duplicateLedgerKey ∧
    mintTwice.1.requests.map (fun r => r.status) = ["FAILED"] := by
  exact ⟨rfl, rfl, rfl, rfl, rfl⟩

/-- Claim C5 (refuted by the code): evaluation at the failing input.  After a
generation failure the abort rolls back the PROCESSING request created inside
the transaction, and the best-effort `updateOne` afterwards (which is not an
upsert) matches no document — so no `MintRequest` with status FAILED is
persisted; indeed the final state is exactly the initial one.  Here the
secondary write itself succeeds (`annotWriteOk = true`), so the claim's
swallowing clause is not what blocks the marking write. -/
theorem mint_failure_leaves_no_failed_request_eval :
    mintGenFail.2 = .error .imageGenerationFailed ∧
    mintGenFail.1.requests = [] ∧
    mintGenFail.1 = db0 := by
  exact ⟨rfl, rfl, rfl⟩

/-- Claim C6 counterexample: a transport error of the generator call is
rethrown as itself, not collapsed to the single GenerationFailed error — the
flow's error at this input is `transportError "ECONNRESET"`, which differs
from `imageGenerationFailed`. -/
theorem generation_transport_error_not_mapped_cex :
    (executeMintFlow "u1" payload1 (.fail "ECONNRESET") 1000 1 "ab" true db0).2
        = .error (.transportError "ECONNRESET") ∧
    MintError.transportError "ECONNRESET" ≠ MintError.imageGenerationFailed := by
  exact ⟨rfl, by decide⟩

/-- Claim C6 as amended: every generator outcome without usable image output
aborts the whole saga (the error is returned and no transaction write
survives), but only the well-formed-response case maps to the single
`IMAGE_GENERATION_FAILED` error: a response with a first candidate none of
whose parts carries nonempty inline data yields `imageGenerationFailed`,
while a throwing call propagates its own transport error and a candidate-less
response surfaces the TypeError of reading `candidates[0]`. -/
theorem generation_error_mapping_amended
    (u : String) (p : Payload) (gen : GenOutcome) (nowMs rand : Nat)
    (txRand : String) (aOk : Bool) (db : DB)
    (w1 : Wallet) (ws1 : List Wallet) (e : MintError)
    (hgate : gateHit u p.idempotencyKey db = none)
    (hlock : lockWallet u p.priceCredits db.wallets = some (w1, ws1))
    (hled : (db.ledgers.any fun x => x.idempotencyKey == "lock-" ++ p.idempotencyKey) = false)
    (hreq : (db.requests.any fun r => r.userId == u && r.idempotencyKey == p.idempotencyKey) = false)
    (hgen : genBase64 gen = .error e) :
    (executeMintFlow u p gen nowMs rand txRand aOk db).2 = .error e ∧
    (∀ m, gen = .fail m → e = .transportError m) ∧
    (gen = .resp [] → e = .typeError) ∧
    (∀ c cs, gen = .resp (c :: cs) →
      e = .imageGenerationFailed ∧ firstInline c.parts = "") ∧
    (executeMintFlow u p gen nowMs rand txRand aOk db).1.wallets = db.wallets ∧
    (executeMintFlow u p gen nowMs rand txRand aOk db).1.assets = db.assets ∧
    (executeMintFlow u p gen nowMs rand txRand aOk db).1.receipts = db.receipts ∧
    (executeMintFlow u p gen nowMs rand txRand aOk db).1.audits = db.audits ∧
    (executeMintFlow u p gen nowMs rand txRand aOk db).1.ledgers = db.ledgers := by
  have hs := runSaga_gen_error u p gen nowMs rand txRand db w1 ws1 e hlock hled hreq hgen
  rw [flow_of_runSaga_error u p gen nowMs rand txRand aOk db e hgate hs]
  refine ⟨rfl, ?_, ?_, ?_, rfl, rfl, rfl, rfl, rfl⟩
  · intro m hm
    subst hm
    simp only [genBase64] at hgen
    injection hgen with hgen
    exact hgen.symm
  · intro hm
    subst hm
    simp only [genBase64] at hgen
    injection hgen with hgen
    exact hgen.symm
  · intro c cs hm
    subst hm
    simp only [genBase64] at hgen
    split at hgen
    · rename_i hb
      injection hgen with hgen
      refine ⟨hgen.symm, by simpa using hb⟩
    · cases hgen

theorem generation_error_mapping_amended_witness :
    gateHit "u1" payload1.idempotencyKey db0 = none ∧
    genBase64 (.fail "ETIMEDOUT") = .error (.transportError "ETIMEDOUT") ∧
    (executeMintFlow "u1" payload1 (.fail "ETIMEDOUT") 1000 1 "ab" true db0).2
        = .error (.transportError "ETIMEDOUT") ∧
    (executeMintFlow "u1" payload1 (.fail "ETIMEDOUT") 1000 1 "ab" true db0).1.wallets
        = db0.wallets := by
  have h := generation_error_mapping_amended "u1" payload1 (.fail "ETIMEDOUT")
    1000 1 "ab" true db0 ⟨"u1", 70, 30⟩ [⟨"u1", 70, 30⟩]
    (.transportError "ETIMEDOUT") rfl rfl rfl rfl rfl
  exact ⟨rfl, rfl, h.1, h.2.2.2.2.1⟩

theorem any_false_find?_none {α : Type} (p : α → Bool) (l : List α)
    (h : l.any p = false) : l.find? p = none := by
  rw [List.find?_eq_none]
  intro x hx
  simp only [List.any_eq_false] at h
  exact h x hx

theorem find?_append_none {α : Type} (p : α → Bool) (l m : List α)
    (h : l.find? p = none) : (l ++ m).find? p = m.find? p := by
  rw [List.find?_append, h, Option.none_or]

theorem uniq_find (t : String) (l : List NftAssetDoc)
    (hu : l.Pairwise fun a b => a.tokenId ≠ b.tokenId)
    (a : NftAssetDoc) (ha : a ∈ l) (ht : a.tokenId = t) :
    l.find? (fun x => x.tokenId == t) = some a := by
  induction l with
  | nil => cases ha
  | cons x xs ih =>
    rw [List.pairwise_cons] at hu
    rcases List.mem_cons.mp ha with hax | hax
    · subst hax
      exact List.find?_cons_of_pos _ (by simp [ht])
    · have hxt : x.tokenId ≠ t := by
        have := hu.1 a hax
        rw [ht] at this
        exact this
      rw [List.find?_cons_of_neg _ (by simp [hxt])]
      exact ih hu.2 hax

/-- Claim C3: conservation on success — a successful (gate-miss) mint moves
exactly `priceCredits` out of the user's balance while leaving the locked
balance where it started, and appends exactly two ledger entries: a DEBIT
lock entry keyed `lock-` ++ idempotencyKey and a DEBIT spend entry keyed
`spend-` ++ idempotencyKey, both of amount `priceCredits`. -/
theorem mint_conservation_on_success
    (u : String) (p : Payload) (gen : GenOutcome) (nowMs rand : Nat)
    (txRand : String) (aOk : Bool) (db db' : DB) (rec : MintReceiptDoc)
    (huw : db.wallets.Pairwise fun a b => a.userId ≠ b.userId)
    (hgate : gateHit u p.idempotencyKey db = none)
    (h : executeMintFlow u p gen nowMs rand txRand aOk db = (db', .ok rec)) :
    (∃ w w', db.wallets.find? (fun x => x.userId == u) = some w ∧
       db'.wallets.find? (fun x => x.userId == u) = some w' ∧
       w.balance = w'.balance + p.priceCredits ∧
       w'.lockedBalance = w.lockedBalance) ∧
    (∃ e1 e2, db'.ledgers = db.ledgers ++ [e1, e2] ∧
       e1.type = "CREDIT_LOCK" ∧ e1.direction = "DEBIT" ∧
       e1.amount = p.priceCredits ∧
       e1.idempotencyKey = "lock-" ++ p.idempotencyKey ∧
       e2.type = "CREDIT_SPEND" ∧ e2.direction = "DEBIT" ∧
       e2.amount = p.priceCredits ∧
       e2.idempotencyKey = "spend-" ++ p.idempotencyKey) := by
  obtain ⟨w1, ws1, b64, hlock, hgen, hassets, hdb, hrec⟩ :=
    flow_ok_shape u p gen nowMs rand txRand aOk db db' rec hgate h
  subst hdb
  constructor
  · obtain ⟨w, hfind, hble, hw1, hfind1⟩ :=
      lockWallet_spec u p.priceCredits db.wallets huw w1 ws1 hlock
    subst hw1
    refine ⟨w, _, hfind, settleWallet_find? u p.priceCredits ws1 _ hfind1, ?_, ?_⟩
    · show w.balance = w.balance - p.priceCredits + p.priceCredits
      omega
    · show w.lockedBalance + p.priceCredits - p.priceCredits = w.lockedBalance
      omega
  · exact ⟨mkLockEntry u p db.nextId,
      mkSpendEntry u p (db.nextId + 1) (db.nextId + 3),
      rfl, rfl, rfl, rfl, rfl, rfl, rfl, rfl, rfl⟩

theorem mint_conservation_on_success_witness :
    (db0.wallets.Pairwise fun a b => a.userId ≠ b.userId) ∧
    gateHit "u1" payload1.idempotencyKey db0 = none ∧
    ((∃ w w', db0.wallets.find? (fun x => x.userId == "u1") = some w ∧
        mintOnce.1.wallets.find? (fun x => x.userId == "u1") = some w' ∧
        w.balance = w'.balance + payload1.priceCredits ∧
        w'.lockedBalance = w.lockedBalance) ∧
     (∃ e1 e2, mintOnce.1.ledgers = db0.ledgers ++ [e1, e2] ∧
        e1.type = "CREDIT_LOCK" ∧ e1.direction = "DEBIT" ∧
        e1.amount = payload1.priceCredits ∧
        e1.idempotencyKey = "lock-" ++ payload1.idempotencyKey ∧
        e2.type = "CREDIT_SPEND" ∧ e2.direction = "DEBIT" ∧
        e2.amount = payload1.priceCredits ∧
        e2.idempotencyKey = "spend-" ++ payload1.idempotencyKey)) := by
  have huw : db0.wallets.Pairwise fun a b => a.userId ≠ b.userId := by
    simp [db0]
  refine ⟨huw, rfl, ?_⟩
  exact mint_conservation_on_success "u1" payload1 genOkResp 1000 1 "ab" true
    db0 mintOnce.1 (commitReceipt "u1" payload1 1000 1 "ab" db0) huw rfl rfl

/-- Claim C7: token uniqueness — the mint flow preserves the invariant that
every stored NftAsset has a distinct tokenId (the unique index of
NftAsset.ts:19 rejects a colliding insert, aborting the saga), so any two
distinct stored assets always differ in tokenId. -/
theorem mint_preserves_token_uniqueness
    (u : String) (p : Payload) (gen : GenOutcome) (nowMs rand : Nat)
    (txRand : String) (aOk : Bool) (db : DB)
    (hu : tokensUnique db) :
    tokensUnique (executeMintFlow u p gen nowMs rand txRand aOk db).1 := by
  match hg : gateHit u p.idempotencyKey db with
  | some r =>
    have hf : executeMintFlow u p gen nowMs rand txRand aOk db = (db, .ok r) := by
      unfold executeMintFlow
      rw [hg]
    rw [hf]
    exact hu
  | none =>
    match hs : runSaga u p gen nowMs rand txRand db with
    | .error e =>
      rw [flow_of_runSaga_error u p gen nowMs rand txRand aOk db e hg hs]
      exact hu
    | .ok (db1, rec1) =>
      have hf : executeMintFlow u p gen nowMs rand txRand aOk db = (db1, .ok rec1) := by
        unfold executeMintFlow
        rw [hg, hs]
      obtain ⟨w1, ws1, b64, hlock, hgen, hassets, hdb, hrec⟩ :=
        flow_ok_shape u p gen nowMs rand txRand aOk db db1 rec1 hg hf
      rw [hf]
      subst hdb
      unfold tokensUnique at hu ⊢
      show (db.assets ++
        [mkAsset u p b64 (mkTokenId nowMs rand) (db.nextId + 2)]).Pairwise _
      rw [List.pairwise_append]
      refine ⟨hu, List.pairwise_singleton _ _, ?_⟩
      intro a ha b hb
      rw [List.mem_singleton] at hb
      subst hb
      have hne := (List.any_eq_false.mp hassets) a ha
      simpa using hne

theorem mint_preserves_token_uniqueness_witness :
    tokensUnique dbAssets ∧
    tokensUnique (executeMintFlow "u1" payload1 genOkResp 1000 1 "ab" true dbAssets).1 := by
  have hu : tokensUnique dbAssets := by
    simp [tokensUnique, dbAssets]
  exact ⟨hu,
    mint_preserves_token_uniqueness "u1" payload1 genOkResp 1000 1 "ab" true dbAssets hu⟩

/-- Claim C8: image retrieval contract — on any state whose stored assets all
carry image bytes (as every asset minted by the flow does) and have unique
token ids, `serveAssetImage` mutates nothing, returns the stored bytes of the
asset with the requested tokenId with mime type image/png when such an asset
exists, and fails with ASSET_NOT_FOUND when none exists. -/
theorem serve_asset_image_contract (t : String) (db : DB)
    (hu : tokensUnique db)
    (hb : ∀ a ∈ db.assets, a.imageData.isSome) :
    (serveAssetImage t db).1 = db ∧
    (∀ a ∈ db.assets, a.tokenId = t →
      ∃ b, a.imageData = some b ∧ (serveAssetImage t db).2 = .ok (b, "image/png")) ∧
    ((∀ a ∈ db.assets, a.tokenId ≠ t) →
      (serveAssetImage t db).2 = .error .assetNotFound) := by
  refine ⟨?_, ?_, ?_⟩
  · unfold serveAssetImage
    split
    · rfl
    · split
      · rfl
      · rfl
  · intro a ha ht
    have hfind := uniq_find t db.assets hu a ha ht
    obtain ⟨b, hab⟩ := Option.isSome_iff_exists.mp (hb a ha)
    refine ⟨b, hab, ?_⟩
    unfold serveAssetImage
    simp [hfind, hab]
  · intro hne
    have hfind : db.assets.find? (fun x => x.tokenId == t) = none := by
      rw [List.find?_eq_none]
      intro a ha
      simpa using hne a ha
    unfold serveAssetImage
    rw [hfind]

theorem serve_asset_image_contract_witness :
    tokensUnique dbAssets ∧
    (∀ a ∈ dbAssets.assets, a.imageData.isSome) ∧
    (serveAssetImage "TOK-1" dbAssets).1 = dbAssets ∧
    (∃ b, assetA.imageData = some b ∧
      (serveAssetImage "TOK-1" dbAssets).2 = .ok (b, "image/png")) ∧
    (serveAssetImage "TOK-9" dbAssets).2 = .error .assetNotFound := by
  have hu : tokensUnique dbAssets := by simp [tokensUnique, dbAssets]
  have hb : ∀ a ∈ dbAssets.assets, a.imageData.isSome := by decide
  have h1 := serve_asset_image_contract "TOK-1" dbAssets hu hb
  have h9 := serve_asset_image_contract "TOK-9" dbAssets hu hb
  refine ⟨hu, hb, h1.1, h1.2.1 assetA (by simp [dbAssets]) rfl, h9.2.2 ?_⟩
  decide

/-- Claim C9: implicit NotFound edge case — `serveAssetImage` succeeds
exactly when an asset with the requested tokenId exists and carries image
bytes; in every other case, including an existing asset whose `imageData`
field is absent, it fails with ASSET_NOT_FOUND. -/
theorem serve_asset_image_ok_iff (t : String) (db : DB)
    (hu : tokensUnique db) :
    ((∃ r, (serveAssetImage t db).2 = .ok r) ↔
      ∃ a ∈ db.assets, a.tokenId = t ∧ a.imageData.isSome) ∧
    (¬ (∃ a ∈ db.assets, a.tokenId = t ∧ a.imageData.isSome) →
      (serveAssetImage t db).2 = .error .assetNotFound) := by
  constructor
  · constructor
    · rintro ⟨r, hr⟩
      unfold serveAssetImage at hr
      split at hr
      · cases hr
      · rename_i a hfind
        split at hr
        · cases hr
        · rename_i b hab
          refine ⟨a, List.mem_of_find?_eq_some hfind, ?_, ?_⟩
          · have := List.find?_some hfind
            simpa using this
          · rw [hab]
            rfl
    · rintro ⟨a, ha, ht, hsome⟩
      have hfind := uniq_find t db.assets hu a ha ht
      obtain ⟨b, hab⟩ := Option.isSome_iff_exists.mp hsome
      refine ⟨(b, "image/png"), ?_⟩
      unfold serveAssetImage
      simp [hfind, hab]
  · intro hne
    unfold serveAssetImage
    match hfind : db.assets.find? (fun x => x.tokenId == t) with
    | none => simp [hfind]
    | some a =>
      have ha := List.mem_of_find?_eq_some hfind
      have ht : a.tokenId = t := by
        have := List.find?_some hfind
        simpa using this
      match hab : a.imageData with
      | none => simp [hfind, hab]
      | some b =>
        exfalso
        exact hne ⟨a, ha, ht, by rw [hab]; rfl⟩

theorem serve_asset_image_ok_iff_witness :
    tokensUnique dbAssets ∧
    (∃ r, (serveAssetImage "TOK-1" dbAssets).2 = .ok r) := by
  have hu : tokensUnique dbAssets := by simp [tokensUnique, dbAssets]
  exact ⟨hu, (serve_asset_image_ok_iff "TOK-1" dbAssets hu).1.mpr
    ⟨assetA, by simp [dbAssets], rfl, by decide⟩⟩

/-- Claim C10: mint/fetch round-trip — a successful (gate-miss) mint returns
a receipt whose tokenId, metadataUri and imageUri equal those of the asset
persisted in the same transaction, with imageUri equal to
`/api/assets/` ++ tokenId ++ `.png`, and serving that tokenId against the
post-state returns exactly the image bytes stored during the mint. -/
theorem mint_serve_roundtrip
    (u : String) (p : Payload) (gen : GenOutcome) (nowMs rand : Nat)
    (txRand : String) (aOk : Bool) (db db' : DB) (rec : MintReceiptDoc)
    (hgate : gateHit u p.idempotencyKey db = none)
    (h : executeMintFlow u p gen nowMs rand txRand aOk db = (db', .ok rec)) :
    ∃ asset buf,
      db'.assets = db.assets ++ [asset] ∧
      rec.tokenId = asset.tokenId ∧
      rec.metadataUri = asset.metadataUri ∧
      rec.imageUri = asset.imageUri ∧
      rec.imageUri = "/api/assets/" ++ rec.tokenId ++ ".png" ∧
      asset.imageData = some buf ∧
      (serveAssetImage rec.tokenId db').2 = .ok (buf, "image/png") := by
  obtain ⟨w1, ws1, b64, hlock, hgen, hassets, hdb, hrec⟩ :=
    flow_ok_shape u p gen nowMs rand txRand aOk db db' rec hgate h
  subst hdb
  subst hrec
  refine ⟨mkAsset u p b64 (mkTokenId nowMs rand) (db.nextId + 2),
    Buffer.fromBase64 b64, rfl, rfl, rfl, rfl, rfl, rfl, ?_⟩
  have htid : (commitReceipt u p nowMs rand txRand db).tokenId
      = mkTokenId nowMs rand := rfl
  rw [htid]
  have hca : (commitDB u p b64 nowMs rand txRand ws1 db).assets
      = db.assets ++ [mkAsset u p b64 (mkTokenId nowMs rand) (db.nextId + 2)] := rfl
  have hfind : (commitDB u p b64 nowMs rand txRand ws1 db).assets.find?
      (fun x => x.tokenId == mkTokenId nowMs rand)
      = some (mkAsset u p b64 (mkTokenId nowMs rand) (db.nextId + 2)) := by
    rw [hca, find?_append_none _ _ _ (any_false_find?_none _ _ hassets)]
    exact List.find?_cons_of_pos _ (by simp [mkAsset])
  unfold serveAssetImage
  rw [hfind]
  rfl

theorem mint_serve_roundtrip_witness :
    gateHit "u1" payload1.idempotencyKey db0 = none ∧
    (∃ asset buf,
      mintOnce.1.assets = db0.assets ++ [asset] ∧
      (commitReceipt "u1" payload1 1000 1 "ab" db0).tokenId = asset.tokenId ∧
      (commitReceipt "u1" payload1 1000 1 "ab" db0).metadataUri = asset.metadataUri ∧
      (commitReceipt "u1" payload1 1000 1 "ab" db0).imageUri = asset.imageUri ∧
      (commitReceipt "u1" payload1 1000 1 "ab" db0).imageUri
        = "/api/assets/" ++ (commitReceipt "u1" payload1 1000 1 "ab" db0).tokenId ++ ".png" ∧
      asset.imageData = some buf ∧
      (serveAssetImage (commitReceipt "u1" payload1 1000 1 "ab" db0).tokenId
        mintOnce.1).2 = .ok (buf, "image/png")) := by
  exact ⟨rfl, mint_serve_roundtrip "u1" payload1 genOkResp 1000 1 "ab" true
    db0 mintOnce.1 (commitReceipt "u1" payload1 1000 1 "ab" db0) rfl rfl⟩
